import Mathlib

/-!
Verification of the deepwell wiki-backend core against its specification.

The development shallowly embeds the Rust sources:
  * `src/src/package/password/manager.rs` (password records, policy, verification),
  * `src/src/page/service.rs` (page/revision lifecycle, tag changes),
  * `src/src/revisions/store.rs` (the on-disk revision store scaffolding),
  * `src/src/server/session.rs` (the session facade).
Database tables become lists of rows, the filesystem becomes an association
list, the clock and the random generators become explicit parameters, and a
Rust `panic!`/`expect` becomes the `panic` outcome.  Code of the repository
that is not present under `src/` (the scrypt wrapper, the wikidot-normalize
crate, the session manager, the `crate::revision` store used by the page
service) is modelled from the specification; each such definition is marked
`Modelled from the spec:` in its doc comment.
-/

namespace Deepwell

/-- Error taxonomy: `src/src/error.rs` plus the variants of the fuller error
enum that the services under `src/` construct (`PageExists`, `PageNotFound`,
`WikiNotFound`, `RevisionNotFound`, `AuthenticationFailed`,
`NewPasswordInvalid`). -/
inductive Error where
  | staticMsg (msg : String)
  | io
  | database
  | pageExists
  | pageNotFound
  | wikiExists
  | wikiNotFound
  | userNotFound
  | revisionNotFound
  | authenticationFailed
  | newPasswordInvalid (reason : String)
  deriving DecidableEq

/-- Result of running an embedded operation: a Rust `Ok`, a Rust `Err`, or an
aborted execution (`panic!` / `expect` / `unimplemented!`). -/
inductive Outcome (α : Type) where
  | ok (val : α)
  | err (e : Error)
  | panic (msg : String)
  deriving DecidableEq

/-- Sequencing of embedded operations: errors and panics short-circuit. -/
def Outcome.bind {α β : Type} : Outcome α → (α → Outcome β) → Outcome β
  | .ok a, f => f a
  | .err e, _ => .err e
  | .panic m, _ => .panic m

instance : Monad Outcome where
  pure := Outcome.ok
  bind := Outcome.bind

/-- True exactly on a Rust `Ok` result. -/
def Outcome.isOk {α : Type} : Outcome α → Bool
  | .ok _ => true
  | _ => false

/-- Executable lexicographic comparison of character lists, the order in which
Rust compares and sorts strings. -/
def lexLe : List Char → List Char → Bool
  | [], _ => true
  | _ :: _, [] => false
  | a :: as, b :: bs =>
    if a < b then true
    else if b < a then false
    else lexLe as bs

/-- Executable string comparison agreeing with the lexicographic order. -/
def strLe (a b : String) : Bool :=
  lexLe a.data b.data

/-- The comparison `strLe` as a decidable relation. -/
def strLeP (a b : String) : Prop := strLe a b = true

instance : DecidableRel strLeP := fun a b => decEq (strLe a b) true

theorem lexLe_iff (xs ys : List Char) : lexLe xs ys = true ↔ xs ≤ ys := by
  induction xs generalizing ys with
  | nil =>
    exact iff_of_true rfl List.nil_le
  | cons a as ih =>
    cases ys with
    | nil =>
      apply iff_of_false
      · simp [lexLe]
      · intro hle
        exact absurd (List.Lex.nil (r := (· < ·)) (a := a) (l := as))
          (not_lt.mpr hle)
    | cons b bs =>
      rcases lt_trichotomy a b with hab | hab | hab
      · apply iff_of_true
        · simp [lexLe, hab]
        · exact le_of_lt (List.Lex.rel hab)
      · subst hab
        have hstep : lexLe (a :: as) (a :: bs) = lexLe as bs := by
          simp [lexLe, lt_irrefl]
        rw [hstep, ih bs]
        constructor
        · intro h
          rw [← not_lt] at h ⊢
          intro hlex
          cases hlex with
          | cons h' => exact h h'
          | rel h' => exact absurd h' (lt_irrefl a)
        · intro h
          rw [← not_lt] at h ⊢
          intro hlex
          exact h (List.Lex.cons hlex)
      · apply iff_of_false
        · simp [lexLe, hab, not_lt.mpr (le_of_lt hab)]
        · rw [← not_lt, not_not]
          exact List.Lex.rel hab

theorem strLe_iff (a b : String) : strLe a b = true ↔ a ≤ b := by
  rw [String.le_iff_toList_le]
  exact lexLe_iff a.data b.data

theorem strLe_trans :
    ∀ a b c : String, strLe a b = true → strLe b c = true → strLe a c = true := by
  intro a b c hab hbc
  rw [strLe_iff] at *
  exact le_trans hab hbc

theorem strLe_total : ∀ a b : String, (strLe a b || strLe b a) = true := by
  intro a b
  rcases le_total a b with h | h
  · simp [Bool.or_eq_true, strLe_iff, h]
  · simp [Bool.or_eq_true, strLe_iff, h]

instance : IsTrans String strLeP :=
  ⟨fun a b c hab hbc => strLe_trans a b c hab hbc⟩

instance : IsTotal String strLeP :=
  ⟨fun a b => by
    have h := strLe_total a b
    rcases Bool.or_eq_true_iff.mp h with h' | h'
    · exact Or.inl h'
    · exact Or.inr h'⟩

/-- Sorting a list of strings ascending, as Rust's `sort` on a string slice
(a structurally recursive sort, extensionally the sorted permutation that the
source's sort produces). -/
def sortStrings (l : List String) : List String :=
  l.insertionSort strLeP

theorem sortStrings_sorted (l : List String) :
    List.Sorted (· ≤ ·) (sortStrings l) := by
  have h := List.sorted_insertionSort strLeP l
  exact List.Pairwise.imp (fun hab => (strLe_iff _ _).mp hab) h

theorem sortStrings_perm (l : List String) : (sortStrings l).Perm l :=
  List.perm_insertionSort strLeP l

theorem mem_sortStrings {a : String} {l : List String} :
    a ∈ sortStrings l ↔ a ∈ l :=
  (sortStrings_perm l).mem_iff

abbrev UserId := Int
abbrev WikiId := Int
abbrev PageId := Int
abbrev RevisionId := Int

/-- Commit identifiers of the revision store; modelled as the position of the
commit in the wiki's linear history. -/
abbrev GitHash := Nat

/-- The bytes of a Rust `&str`, one abstract byte value per character
(the embedding never decodes bytes back, so the code-point value stands in
for the character's UTF-8 byte group). -/
def strBytes (s : String) : List Nat :=
  s.data.map Char.toNat

/-- The `MAX_PASSWORD_LEN` constant of `password/manager.rs`. -/
def MAX_PASSWORD_LEN : Nat := 8192

/-- A `passwords` table row (`struct Password`, `password/manager.rs` lines
30–38).  `logn` is an `i16` column, `param_r` and `param_p` are `i32`
columns, all kept as integers exactly as stored. -/
structure Password where
  user_id : UserId
  hash : List Nat
  salt : List Nat
  logn : Int
  param_r : Int
  param_p : Int
  deriving DecidableEq

/-- The accessor `Password::logn` (lines 71–76): `self.logn.try_into()
.expect("Stored log_n field is out of bounds")` converting `i16 → u8`;
it panics whenever the stored value is negative or above 255. -/
def Password.lognAcc (p : Password) : Outcome Nat :=
  if 0 ≤ p.logn ∧ p.logn ≤ 255 then .ok p.logn.toNat
  else .panic "Stored log_n field is out of bounds"

/-- The accessor `Password::param_r` (lines 78–83): `i32 → u32` conversion
that panics on a negative stored value. -/
def Password.paramRAcc (p : Password) : Outcome Nat :=
  if 0 ≤ p.param_r then .ok p.param_r.toNat
  else .panic "Stored param_r field is out of bounds"

/-- The accessor `Password::param_p` (lines 85–90): `i32 → u32` conversion
that panics on a negative stored value (the source reuses the `param_r`
panic message). -/
def Password.paramPAcc (p : Password) : Outcome Nat :=
  if 0 ≤ p.param_p then .ok p.param_p.toNat
  else .panic "Stored param_r field is out of bounds"

/-- Modelled from the spec: the scrypt-family memory-hard KDF behind
`new_password`/`check_password` (crate code not under `src/`).  The spec fixes
only that the digest is a deterministic function of the password bytes, the
salt and the three cost parameters, which this executable stand-in is. -/
def scryptHash (password salt : List Nat) (logn r p : Nat) : List Nat :=
  logn :: r :: p :: salt ++ password

/-- Modelled from the spec: `check_password(record, password)` (crate code not
under `src/`): recompute the hash with the record's stored parameters — read
through the panicking accessors above, the only way to reach the private
fields — and compare with the stored hash. -/
def check_password (record : Password) (password : List Nat) : Outcome Bool := do
  let logn ← record.lognAcc
  let r ← record.paramRAcc
  let p ← record.paramPAcc
  pure (scryptHash password record.salt logn r p == record.hash)

/-- Modelled from the spec: `new_password(user_id, password)` (crate code not
under `src/`): hash with the recommended parameters `log_n = 15`, `r = 8`,
`p = 1` and a fresh 16-byte salt; the salt is passed in explicitly since the
embedding has no randomness. -/
def new_password (user_id : UserId) (password : List Nat) (salt : List Nat) :
    Password :=
  { user_id := user_id
    hash := scryptHash password salt 15 8 1
    salt := salt
    logn := 15
    param_r := 8
    param_p := 1 }

/-- Upsert into `passwords` keyed on `user_id` (the `on_conflict … do_update`
insert in `PasswordManager::set`). -/
def upsertPassword (db : List Password) (model : Password) : List Password :=
  if db.any (fun r => r.user_id == model.user_id) then
    db.map (fun r => if r.user_id == model.user_id then model else r)
  else
    db ++ [model]

/-- `PasswordManager::verify_password` (manager.rs lines 116–133): byte-length
guard, character-count guard, blacklist guard, in that order. -/
def verify_password (blacklist : List String) (password : String) :
    Outcome Unit :=
  if password.utf8ByteSize > MAX_PASSWORD_LEN then
    .err (.newPasswordInvalid "password too long")
  else if password.length < 8 then
    .err (.newPasswordInvalid "password must be at least 8 characters")
  else if blacklist.contains password then
    .err (.newPasswordInvalid "password is too common")
  else
    .ok ()

/-- `PasswordManager::set` (manager.rs lines 135–151): verify the password
policy, then upsert the freshly hashed record. -/
def PasswordManager.set (blacklist : List String) (db : List Password)
    (user_id : UserId) (password : String) (salt : List Nat) :
    Outcome (List Password) := do
  let _ ← verify_password blacklist password
  pure (upsertPassword db (new_password user_id (strBytes password) salt))

/-- `PasswordManager::check_internal` (manager.rs lines 165–184): DoS length
guard, record fetch, recomputation with the stored parameters. -/
def PasswordManager.check_internal (db : List Password) (user_id : UserId)
    (password : String) : Outcome Unit :=
  if password.utf8ByteSize > MAX_PASSWORD_LEN then .err .authenticationFailed
  else
    match db.find? (fun r => r.user_id == user_id) with
    | none => .err .authenticationFailed
    | some record =>
      match check_password record (strBytes password) with
      | .ok true => .ok ()
      | .ok false => .err .authenticationFailed
      | .err e => .err e
      | .panic m => .panic m

/-- `PasswordManager::check` (manager.rs lines 153–163): delegates to
`check_internal`; on failure it logs and pauses ~500 ms before returning the
same error (timing is outside the embedding). -/
def PasswordManager.check (db : List Password) (user_id : UserId)
    (password : String) : Outcome Unit :=
  PasswordManager.check_internal db user_id password

/-- Modelled from the spec: the character class of wikidot normal form
(spec §9: lowercase, ASCII alphanumerics, `:` as category separator, `-`). -/
def normalChar (c : Char) : Bool :=
  ('a' ≤ c && c ≤ 'z') || ('0' ≤ c && c ≤ '9') || c == ':' || c == '-'

/-- Modelled from the spec: `is_normal` of the external `wikidot_normalize`
crate — every character in the normal class and no leading or trailing `-`
(spec §9 slug normalization contract). -/
def is_normal (slug : String) : Bool :=
  slug.data.all normalChar
    && slug.data.head? != some '-'
    && slug.data.getLast? != some '-'

/-- `check_normal` (`src/src/revisions/store.rs` lines 247–253): the
`SlugNotNormal` guard. -/
def check_normal (slug : String) : Outcome Unit :=
  if is_normal slug then .ok ()
  else .err (.staticMsg "slug not in wikidot normal form")

/-- Author metadata carried with a store commit (`CommitInfo`). -/
structure CommitInfo where
  username : String
  message : String
  deriving DecidableEq

end Deepwell

namespace Deepwell.Revisions

/-- The revision store of `src/src/revisions/store.rs`: its repo directory is
modelled as the association list from file name (slug) to contents; the `git`
subprocess parts of that file are `unimplemented!()` scaffolding and are
modelled as panics reached after the filesystem effects that precede them. -/
structure RevisionStore where
  files : List (String × List Nat)
  domain : String
  deriving DecidableEq

/-- `RevisionStore::read_file` (lines 72–90): `Ok(None)` when absent. -/
def RevisionStore.read_file (store : RevisionStore) (slug : String) :
    Option (List Nat) :=
  store.files.lookup slug

/-- `RevisionStore::write_file` (lines 92–97): create or truncate-and-write. -/
def RevisionStore.write_file (store : RevisionStore) (slug : String)
    (content : List Nat) : RevisionStore :=
  { store with
    files := (slug, content) :: store.files.filter (fun f => !(f.1 == slug)) }

/-- `RevisionStore::remove_file` (lines 99–114): `none` when the file was
absent (mapped from the `NotFound` I/O error). -/
def RevisionStore.remove_file (store : RevisionStore) (slug : String) :
    Option RevisionStore :=
  if store.files.any (fun f => f.1 == slug) then
    some { store with files := store.files.filter (fun f => !(f.1 == slug)) }
  else
    none

/-- `RevisionStore::get_page` (lines 197–206): the only operation of this file
that calls `check_normal` before touching the filesystem. -/
def RevisionStore.get_page (store : RevisionStore) (slug : String) :
    Outcome (Option (List Nat)) := do
  let _ ← check_normal slug
  pure (store.read_file slug)

/-- `RevisionStore::commit` (lines 145–166): writes the file unconditionally —
no `check_normal` — then reaches the `unimplemented!()` git invocation.
Returns the mutated filesystem together with the aborted outcome. -/
def RevisionStore.commit (store : RevisionStore) (slug : String)
    (content : List Nat) (info : CommitInfo) : RevisionStore × Outcome GitHash :=
  (store.write_file slug content, .panic "not implemented")

/-- `RevisionStore::remove` (lines 170–193): deletes the file — again without
`check_normal` — returning `Ok(None)` when absent, otherwise reaching the
`unimplemented!()` git invocation. -/
def RevisionStore.remove (store : RevisionStore) (slug : String)
    (info : CommitInfo) : RevisionStore × Outcome (Option GitHash) :=
  match store.remove_file slug with
  | none => (store, .ok none)
  | some store' => (store', .panic "not implemented")

/-- `RevisionStore::get_page_version` (lines 210–226): no slug validation, no
filesystem effect, straight into the `unimplemented!()` git invocation. -/
def RevisionStore.get_page_version (store : RevisionStore) (slug : String)
    (hash : GitHash) : Outcome (Option (List Nat)) :=
  .panic "not implemented"

end Deepwell.Revisions


namespace Deepwell

/-- Modelled from the spec (§4.5): the per-wiki revision store used by the
page service (`crate::revision::RevisionStore`, code not under `src/`).  The
linear history is the list of tree snapshots, one per commit; the commit id is
the snapshot's index; every slug crossing the boundary must be wikidot-normal
or the call fails with the slug-not-normal error. -/
structure RevisionStore where
  snapshots : List (List (String × List Nat))
  domain : String
  deriving DecidableEq

/-- The current tree of the store: the snapshot of the newest commit. -/
def RevisionStore.tree (store : RevisionStore) : List (String × List Nat) :=
  store.snapshots.getLastD []

/-- Record a commit whose tree is `t`; the new commit id is the index the
snapshot receives in the history. -/
def RevisionStore.addCommit (store : RevisionStore)
    (t : List (String × List Nat)) : RevisionStore × GitHash :=
  ({ store with snapshots := store.snapshots ++ [t] }, store.snapshots.length)

/-- Create or overwrite the blob named `slug` in a tree. -/
def updateTree (t : List (String × List Nat)) (slug : String)
    (content : List Nat) : List (String × List Nat) :=
  (slug, content) :: t.filter (fun f => !(f.1 == slug))

/-- Modelled from the spec (§4.5 `commit`): write `content` to the blob named
`slug` when supplied (the page service passes `None` for a metadata-only
change, recorded as a commit without tree change), then record a commit. -/
def RevisionStore.commit (store : RevisionStore) (slug : String)
    (content : Option (List Nat)) (info : CommitInfo) :
    Outcome (RevisionStore × GitHash) := do
  let _ ← check_normal slug
  match content with
  | some c => pure (store.addCommit (updateTree store.tree slug c))
  | none => pure (store.addCommit store.tree)

/-- Modelled from the spec (§4.5 `empty_commit`): a commit with no tree
change, used for tag-only revisions. -/
def RevisionStore.empty_commit (store : RevisionStore) (info : CommitInfo) :
    Outcome (RevisionStore × GitHash) :=
  pure (store.addCommit store.tree)

/-- Modelled from the spec (§4.5 `remove`): delete the blob and commit;
`none` without a commit when the blob was absent. -/
def RevisionStore.remove (store : RevisionStore) (slug : String)
    (info : CommitInfo) : Outcome (RevisionStore × Option GitHash) := do
  let _ ← check_normal slug
  if store.tree.any (fun f => f.1 == slug) then
    let r := store.addCommit (store.tree.filter (fun f => !(f.1 == slug)))
    pure (r.1, some r.2)
  else
    pure (store, none)

/-- Modelled from the spec (§4.5 `rename`): move the blob and commit; fails
when the source blob is absent or the target blob present. -/
def RevisionStore.rename (store : RevisionStore) (old_slug new_slug : String)
    (info : CommitInfo) : Outcome (RevisionStore × GitHash) := do
  let _ ← check_normal old_slug
  let _ ← check_normal new_slug
  match store.tree.lookup old_slug with
  | none => .err (.staticMsg "rename source not found")
  | some c =>
    if store.tree.any (fun f => f.1 == new_slug) then
      .err (.staticMsg "rename target already exists")
    else
      pure (store.addCommit
        (updateTree (store.tree.filter (fun f => !(f.1 == old_slug)))
          new_slug c))

/-- Modelled from the spec (§4.5 `restore`): copy the blob that existed at
commit `hash` under `old_slug` to the name `new_slug` and commit. -/
def RevisionStore.restore (store : RevisionStore) (new_slug old_slug : String)
    (hash : GitHash) (info : CommitInfo) : Outcome (RevisionStore × GitHash) := do
  let _ ← check_normal new_slug
  let _ ← check_normal old_slug
  match store.snapshots.get? hash with
  | none => .err (.staticMsg "no such commit")
  | some t =>
    match t.lookup old_slug with
    | none => .err (.staticMsg "page absent at that commit")
    | some c => pure (store.addCommit (updateTree store.tree new_slug c))

/-- Modelled from the spec (§4.5 `get_page`): the current blob, `none` when
absent. -/
def RevisionStore.get_page (store : RevisionStore) (slug : String) :
    Outcome (Option (List Nat)) := do
  let _ ← check_normal slug
  pure (store.tree.lookup slug)

/-- Modelled from the spec (§4.5 `get_page_version`): the blob as of the given
commit, `none` when absent at that commit. -/
def RevisionStore.get_page_version (store : RevisionStore) (slug : String)
    (hash : GitHash) : Outcome (Option (List Nat)) := do
  let _ ← check_normal slug
  match store.snapshots.get? hash with
  | none => .err (.staticMsg "no such commit")
  | some t => pure (t.lookup slug)

/-- The `change_type` column values (`ChangeType`, `page/models.rs`). -/
inductive ChangeType where
  | create
  | modify
  | rename
  | delete
  | restore
  | tags
  deriving DecidableEq

/-- `ChangeType::verb` as used by `PageService::commit_data`. -/
def ChangeType.verb : ChangeType → String
  | .create => "created"
  | .modify => "modified"
  | .rename => "renamed"
  | .delete => "deleted"
  | .restore => "restored"
  | .tags => "tagged"

/-- A `pages` table row (`struct Page`, `page/service.rs` lines 53–63). -/
structure Page where
  page_id : PageId
  wiki_id : WikiId
  slug : String
  title : String
  alt_title : Option String
  tags : List String
  created_at : Int
  deleted_at : Option Int
  deriving DecidableEq

/-- A `revisions` table row. -/
structure Revision where
  revision_id : RevisionId
  page_id : PageId
  user_id : UserId
  message : String
  git_commit : GitHash
  change_type : ChangeType
  deriving DecidableEq

/-- A `tag_history` table row. -/
structure TagChange where
  revision_id : RevisionId
  added_tags : List String
  removed_tags : List String
  deriving DecidableEq

/-- The relational state the page service sees: the three tables plus the
serial-column counters. -/
structure Db where
  pages : List Page
  revisions : List Revision
  tag_history : List TagChange
  next_page_id : PageId
  next_revision_id : RevisionId
  deriving DecidableEq

/-- The user handed to page operations (`user.id()` / `user.name()`). -/
structure User where
  id : UserId
  name : String
  deriving DecidableEq

/-- `PageCommit` (`page/service.rs` lines 45–51). -/
structure PageCommit where
  wiki_id : WikiId
  slug : String
  message : String
  user : User
  deriving DecidableEq

/-- The page service state: the database plus the `wiki_id → RevisionStore`
map. -/
structure ServiceState where
  db : Db
  stores : List (WikiId × RevisionStore)
  deriving DecidableEq

end Deepwell

namespace Deepwell

/-- `PageService::commit_data` (`page/service.rs` lines 148–162): the fixed
store-commit message; the user-supplied message never reaches the store. -/
def commit_data (wiki_id : WikiId) (page_id : PageId) (user_id : UserId)
    (change_type : ChangeType) : String :=
  "User ID " ++ toString user_id ++ " " ++ change_type.verb ++ " page ID "
    ++ toString page_id ++ " on wiki ID " ++ toString wiki_id

/-- Fetch the wiki's store from the service map (`PageService::store` plus
`ReadGuard::get`, lines 118–128 and 177–183): `WikiNotFound` when absent. -/
def getStore (st : ServiceState) (wiki_id : WikiId) : Outcome RevisionStore :=
  match st.stores.lookup wiki_id with
  | some store => .ok store
  | none => .err .wikiNotFound

/-- Write back the wiki's store into the service map. -/
def setStore (st : ServiceState) (wiki_id : WikiId) (store : RevisionStore) :
    ServiceState :=
  { st with
    stores := (wiki_id, store) :: st.stores.filter (fun s => !(s.1 == wiki_id)) }

/-- `PageService::get_page_id` (lines 200–212): first row filtered on
`wiki_id` and `slug` — with no filter on `deleted_at`. -/
def get_page_id (db : Db) (wiki_id : WikiId) (slug : String) : Option PageId :=
  (db.pages.find? (fun p => p.wiki_id == wiki_id && p.slug == slug)).map
    (fun p => p.page_id)

/-- `PageService::check_page` (lines 664–678): first row filtered on `slug`
and `deleted_at IS NULL` — the `wiki_id` argument is accepted but never used
in the query, exactly as in the source. -/
def check_page (db : Db) (wiki_id : WikiId) (slug : String) : Bool :=
  (db.pages.find? (fun p => p.slug == slug && p.deleted_at == none)).isSome

/-- `PageService::get_page` (lines 680–692): filtered on `wiki_id`, `slug`
and `deleted_at IS NULL`. -/
def get_page (db : Db) (wiki_id : WikiId) (slug : String) : Option Page :=
  db.pages.find?
    (fun p => p.wiki_id == wiki_id && p.slug == slug && p.deleted_at == none)

/-- `PageService::get_page_by_id` (lines 694–704): primary-key lookup with no
filter on `deleted_at`. -/
def get_page_by_id (db : Db) (page_id : PageId) : Option Page :=
  db.pages.find? (fun p => p.page_id == page_id)

/-- The `UPDATE pages … WHERE page_id = id` of `commit`/`rename`
(`UpdatePage`): absent fields keep their stored values; `alt_title` is
nullable, so its update carries an `Option (Option _)`. -/
def Db.updatePage (db : Db) (page_id : PageId) (slug : Option String)
    (title : Option String) (alt_title : Option (Option String)) : Db :=
  { db with
    pages := db.pages.map (fun p =>
      if p.page_id == page_id then
        { p with
          slug := slug.getD p.slug
          title := title.getD p.title
          alt_title := alt_title.getD p.alt_title }
      else p) }

/-- The `UPDATE pages SET deleted_at = now() WHERE page_id = id` of
`PageService::remove`. -/
def Db.markDeleted (db : Db) (page_id : PageId) (now : Int) : Db :=
  { db with
    pages := db.pages.map (fun p =>
      if p.page_id == page_id then { p with deleted_at := some now } else p) }

/-- The `INSERT INTO revisions … RETURNING revision_id` used by every
mutating operation. -/
def Db.insertRevision (db : Db) (page_id : PageId) (user_id : UserId)
    (message : String) (git_commit : GitHash) (change_type : ChangeType) :
    Db × RevisionId :=
  let rid := db.next_revision_id
  ({ db with
      revisions := db.revisions ++
        [{ revision_id := rid, page_id := page_id, user_id := user_id,
           message := message, git_commit := git_commit,
           change_type := change_type }]
      next_revision_id := rid + 1 },
   rid)

/-- `PageService::raw_commit` (lines 185–198): fetch the wiki's store and
commit content to it. -/
def raw_commit (st : ServiceState) (wiki_id : WikiId) (slug : String)
    (content : Option (List Nat)) (info : CommitInfo) :
    Outcome (ServiceState × GitHash) := do
  let store ← getStore st wiki_id
  let r ← store.commit slug content info
  pure (setStore st wiki_id r.1, r.2)

/-- `tag_diff` (`page/service.rs` lines 892–914): both hash-set differences,
collected and sorted. -/
def tag_diff (current_tags : List String) (new_tags : List String) :
    List String × List String :=
  let added_tags :=
    sortStrings (new_tags.dedup.filter (fun t => !(current_tags.contains t)))
  let removed_tags :=
    sortStrings (current_tags.dedup.filter (fun t => !(new_tags.contains t)))
  (added_tags, removed_tags)

/-- `PageService::create` (lines 214–276): reject when `get_page_id` finds any
row — deleted or not — then insert the page row, commit the content, insert
the `Create` revision, all in one transaction (an error returns no state). -/
def PageService.create (st : ServiceState) (c : PageCommit)
    (content : List Nat) (title : String) (alt_title : Option String)
    (now : Int) : Outcome (ServiceState × PageId × RevisionId) :=
  match get_page_id st.db c.wiki_id c.slug with
  | some _ => .err .pageExists
  | none => do
    let page_id := st.db.next_page_id
    let page : Page :=
      { page_id := page_id, wiki_id := c.wiki_id, slug := c.slug,
        title := title, alt_title := alt_title, tags := [],
        created_at := now, deleted_at := none }
    let st1 : ServiceState :=
      { st with db := { st.db with
          pages := st.db.pages ++ [page], next_page_id := page_id + 1 } }
    let info : CommitInfo :=
      { username := c.user.name
        message := commit_data c.wiki_id page_id c.user.id .create }
    let r ← raw_commit st1 c.wiki_id c.slug (some content) info
    let ins := r.1.db.insertRevision page_id c.user.id c.message r.2 .create
    pure ({ r.1 with db := ins.1 }, page_id, ins.2)

/-- `PageService::commit` (lines 278–343): find the page through
`get_page_id`, update the supplied metadata, commit the content (if any),
insert the `Modify` revision. -/
def PageService.commit (st : ServiceState) (c : PageCommit)
    (content : Option (List Nat)) (title : Option String)
    (alt_title : Option (Option String)) :
    Outcome (ServiceState × RevisionId) :=
  match get_page_id st.db c.wiki_id c.slug with
  | none => .err .pageNotFound
  | some page_id => do
    let st1 : ServiceState :=
      { st with db := st.db.updatePage page_id none title alt_title }
    let info : CommitInfo :=
      { username := c.user.name
        message := commit_data c.wiki_id page_id c.user.id .modify }
    let r ← raw_commit st1 c.wiki_id c.slug content info
    let ins := r.1.db.insertRevision page_id c.user.id c.message r.2 .modify
    pure ({ r.1 with db := ins.1 }, ins.2)

/-- `PageService::rename` (lines 345–411): find through `get_page_id` on the
old slug, update `pages.slug`, rename the blob, insert the `Rename`
revision. -/
def PageService.rename (st : ServiceState) (wiki_id : WikiId)
    (old_slug new_slug : String) (message : String) (user : User) :
    Outcome (ServiceState × RevisionId) :=
  match get_page_id st.db wiki_id old_slug with
  | none => .err .pageNotFound
  | some page_id => do
    let st1 : ServiceState :=
      { st with db := st.db.updatePage page_id (some new_slug) none none }
    let info : CommitInfo :=
      { username := user.name
        message := commit_data wiki_id page_id user.id .rename }
    let store ← getStore st1 wiki_id
    let r ← store.rename old_slug new_slug info
    let st2 := setStore st1 wiki_id r.1
    let ins := st2.db.insertRevision page_id user.id message r.2 .rename
    pure ({ st2 with db := ins.1 }, ins.2)

/-- `PageService::remove` (lines 413–476): find through `get_page_id`, set
`deleted_at = now`, remove the blob — `PageNotFound` when the store had no
such blob — and insert the `Delete` revision. -/
def PageService.remove (st : ServiceState) (c : PageCommit) (now : Int) :
    Outcome (ServiceState × RevisionId) :=
  match get_page_id st.db c.wiki_id c.slug with
  | none => .err .pageNotFound
  | some page_id => do
    let st1 : ServiceState :=
      { st with db := st.db.markDeleted page_id now }
    let info : CommitInfo :=
      { username := c.user.name
        message := commit_data c.wiki_id page_id c.user.id .delete }
    let store ← getStore st1 c.wiki_id
    let r ← store.remove c.slug info
    match r.2 with
    | none => .err .pageNotFound
    | some hash =>
      let st2 := setStore st1 c.wiki_id r.1
      let ins := st2.db.insertRevision page_id c.user.id c.message hash .delete
      pure ({ st2 with db := ins.1 }, ins.2)

/-- The most recently created soft-deleted page for `(wiki_id, slug)`
(`ORDER BY created_at DESC … FIRST` in `PageService::restore`). -/
def lastDeletedPage (db : Db) (wiki_id : WikiId) (slug : String) :
    Option Page :=
  (db.pages.filter (fun p =>
      p.wiki_id == wiki_id && p.slug == slug && !(p.deleted_at == none))).foldl
    (fun acc p =>
      match acc with
      | none => some p
      | some q => if q.created_at < p.created_at then some p else acc)
    none

/-- The last non-`Delete` revision of a page (`ORDER BY revision_id DESC …
FIRST` over an append-ordered revisions table). -/
def lastNonDeleteRevision (db : Db) (page_id : PageId) : Option Revision :=
  (db.revisions.filter (fun r =>
      r.page_id == page_id && !(r.change_type == .delete))).getLast?

/-- `PageService::restore` (lines 478–584): reject `PageExists` from
`check_page` (which ignores the wiki), locate the page to restore, re-read
its wiki and old slug from the row, take the last non-deletion commit,
restore the blob and insert a `Restore` revision.  The source neither clears
`deleted_at` nor rewrites `pages.slug`; the model is faithful to that. -/
def PageService.restore (st : ServiceState) (c : PageCommit)
    (page_id_arg : Option PageId) : Outcome (ServiceState × RevisionId) :=
  if check_page st.db c.wiki_id c.slug then .err .pageExists
  else
    let found : Outcome PageId :=
      match page_id_arg with
      | some id => .ok id
      | none =>
        match lastDeletedPage st.db c.wiki_id c.slug with
        | some p => .ok p.page_id
        | none => .err .pageNotFound
    match found with
    | .err e => .err e
    | .panic m => .panic m
    | .ok page_id =>
      match st.db.pages.find? (fun p => p.page_id == page_id) with
      | none => .err .pageNotFound
      | some row =>
        match lastNonDeleteRevision st.db page_id with
        | none => .err .database
        | some rev => do
          let info : CommitInfo :=
            { username := c.user.name
              message := commit_data row.wiki_id page_id c.user.id .restore }
          let store ← getStore st row.wiki_id
          let r ← store.restore c.slug row.slug rev.git_commit info
          let st2 := setStore st row.wiki_id r.1
          let ins := st2.db.insertRevision page_id c.user.id c.message r.2
            .restore
          pure ({ st2 with db := ins.1 }, ins.2)

/-- `PageService::tags` (lines 586–662): find through `get_page_id`, read the
current tags, compute `tag_diff`, record a `Tags` revision on an empty store
commit, insert the `tag_history` row, then run `UPDATE pages SET tags = …`
with no row filter — every page row receives the sorted input, exactly as the
source does. -/
def PageService.tags (st : ServiceState) (c : PageCommit)
    (new_tags : List String) : Outcome (ServiceState × RevisionId) :=
  match get_page_id st.db c.wiki_id c.slug with
  | none => .err .pageNotFound
  | some page_id =>
    match st.db.pages.find? (fun p => p.page_id == page_id) with
    | none => .err .database
    | some row => do
      let current_tags := row.tags
      let d := tag_diff current_tags new_tags
      let info : CommitInfo :=
        { username := c.user.name
          message := commit_data c.wiki_id page_id c.user.id .tags }
      let store ← getStore st c.wiki_id
      let r ← store.empty_commit info
      let st2 := setStore st c.wiki_id r.1
      let ins := st2.db.insertRevision page_id c.user.id c.message r.2 .tags
      let db3 : Db :=
        { ins.1 with
          tag_history := ins.1.tag_history ++
            [{ revision_id := ins.2, added_tags := d.1, removed_tags := d.2 }] }
      let sorted := sortStrings new_tags
      let db4 : Db :=
        { db3 with pages := db3.pages.map (fun p => { p with tags := sorted }) }
      pure ({ st2 with db := db4 }, ins.2)

end Deepwell

namespace Deepwell

/-- A `sessions` table row (spec §3: keyed by `user_id`, at most one row per
user). -/
structure Session where
  user_id : UserId
  token : String
  ip_address : String
  created_at : Int
  deriving DecidableEq

/-- Modelled from the spec (§4.4 `get_token`): the user's current token, if
any. -/
def SessionManager.get_token (sessions : List Session) (user_id : UserId) :
    Option String :=
  (sessions.find? (fun s => s.user_id == user_id)).map (fun s => s.token)

/-- Modelled from the spec (§4.4 `create_token`): insert the session row,
replacing any existing row for the user; the generated token is passed in
explicitly since the embedding has no randomness. -/
def SessionManager.create_token (sessions : List Session) (user_id : UserId)
    (token : String) (ip : String) (now : Int) : List Session :=
  sessions.filter (fun s => !(s.user_id == user_id)) ++
    [{ user_id := user_id, token := token, ip_address := ip,
       created_at := now }]

/-- The state the server facade's session path touches. -/
structure ServerState where
  passwords : List Password
  sessions : List Session
  deriving DecidableEq

/-- `Server::create_session` (`src/src/server/session.rs` lines 32–55): check
the password, then *get or create* the session token — when a session row
already exists its token is returned as-is and `create_token` is never
called. -/
def Server.create_session (st : ServerState) (user_id : UserId)
    (password : String) (ip : String) (fresh : String) (now : Int) :
    Outcome (ServerState × String) := do
  let _ ← PasswordManager.check st.passwords user_id password
  match SessionManager.get_token st.sessions user_id with
  | some token => pure (st, token)
  | none =>
    pure ({ st with
              sessions := SessionManager.create_token st.sessions user_id
                fresh ip now },
          fresh)

end Deepwell

namespace Deepwell

/-- C8: for every input password, `PasswordManager::set` returns
`NewPasswordInvalid("password too long")` when the byte length exceeds 8192,
otherwise `NewPasswordInvalid("password must be at least 8 characters")` when
the character count is below 8, otherwise `NewPasswordInvalid("password is
too common")` when the password is blacklisted, and only upserts a password
record when none of these conditions hold. -/
theorem password_set_policy (blacklist : List String) (db : List Password)
    (user_id : UserId) (password : String) (salt : List Nat) :
    PasswordManager.set blacklist db user_id password salt =
      if password.utf8ByteSize > MAX_PASSWORD_LEN then
        .err (.newPasswordInvalid "password too long")
      else if password.length < 8 then
        .err (.newPasswordInvalid "password must be at least 8 characters")
      else if blacklist.contains password then
        .err (.newPasswordInvalid "password is too common")
      else
        .ok (upsertPassword db (new_password user_id (strBytes password) salt))
    := by
  unfold PasswordManager.set verify_password
  split_ifs <;> rfl

/-- C1 (amended): the accessors that convert the stored `logn`, `param_r`,
`param_p` abort (panic) when the stored value is out of range, so
`check` on such a record panics during verification instead of returning
`AuthenticationFailed`. -/
theorem password_check_out_of_range_panics (db : List Password)
    (user_id : UserId) (password : String) (record : Password)
    (hlen : ¬ password.utf8ByteSize > MAX_PASSWORD_LEN)
    (hfind : db.find? (fun r => r.user_id == user_id) = some record)
    (hbad : record.logn < 0 ∨ 255 < record.logn ∨ record.param_r < 0 ∨
      record.param_p < 0) :
    ∃ m, PasswordManager.check db user_id password = Outcome.panic m := by
  unfold PasswordManager.check PasswordManager.check_internal
  rw [if_neg hlen, hfind]
  unfold check_password Password.lognAcc Password.paramRAcc Password.paramPAcc
  by_cases h1 : 0 ≤ record.logn ∧ record.logn ≤ 255
  · by_cases h2 : 0 ≤ record.param_r
    · by_cases h3 : 0 ≤ record.param_p
      · exfalso
        obtain ⟨h1a, h1b⟩ := h1
        rcases hbad with h | h | h | h <;> omega
      · simp only [if_pos h1, if_pos h2, if_neg h3]
        exact ⟨_, rfl⟩
    · simp only [if_pos h1, if_neg h2]
      exact ⟨_, rfl⟩
  · simp only [if_neg h1]
    exact ⟨_, rfl⟩

/-- Witness for C1 (amended): a concrete record whose `logn` is 300 makes
`check` panic. -/
theorem password_check_out_of_range_panics_witness :
    ∃ m,
      PasswordManager.check
        [{ user_id := 1, hash := [], salt := [], logn := 300, param_r := 8,
           param_p := 1 }]
        1 "blackmoonhowls" = Outcome.panic m :=
  password_check_out_of_range_panics
    [{ user_id := 1, hash := [], salt := [], logn := 300, param_r := 8,
       param_p := 1 }]
    1 "blackmoonhowls"
    { user_id := 1, hash := [], salt := [], logn := 300, param_r := 8,
      param_p := 1 }
    (by decide) (by decide) (by decide)

/-- Counterexample to C1 as stated: with a stored `logn` of `-1`, `check`
with the user's id and a well-formed password aborts with the accessor's
panic — it does not return `AuthenticationFailed`. -/
theorem password_check_out_of_range_cex :
    PasswordManager.check
        [{ user_id := 1, hash := [], salt := [], logn := -1, param_r := 8,
           param_p := 1 }]
        1 "blackmoonhowls"
      = Outcome.panic "Stored log_n field is out of bounds"
    ∧ PasswordManager.check
        [{ user_id := 1, hash := [], salt := [], logn := -1, param_r := 8,
           param_p := 1 }]
        1 "blackmoonhowls"
      ≠ Outcome.err Error.authenticationFailed := by
  constructor
  · rfl
  · decide

end Deepwell

namespace Deepwell

@[simp]
theorem Outcome.ok_bind {α β : Type} (a : α) (f : α → Outcome β) :
    (Outcome.ok a >>= f) = f a := rfl

@[simp]
theorem Outcome.err_bind {α β : Type} (e : Error) (f : α → Outcome β) :
    (Outcome.err e >>= f) = Outcome.err e := rfl

@[simp]
theorem Outcome.panic_bind {α β : Type} (m : String) (f : α → Outcome β) :
    (Outcome.panic m >>= f) = Outcome.panic m := rfl

@[simp]
theorem Outcome.pure_eq {α : Type} (a : α) :
    (pure a : Outcome α) = Outcome.ok a := rfl

theorem Outcome.bind_eq_err {α β : Type} {x : Outcome α} {f : α → Outcome β}
    {e : Error} :
    (x >>= f) = Outcome.err e ↔
      x = Outcome.err e ∨ ∃ a, x = Outcome.ok a ∧ f a = Outcome.err e := by
  cases x <;> simp

theorem Outcome.bind_eq_ok {α β : Type} {x : Outcome α} {f : α → Outcome β}
    {b : β} :
    (x >>= f) = Outcome.ok b ↔
      ∃ a, x = Outcome.ok a ∧ f a = Outcome.ok b := by
  cases x <;> simp

theorem getStore_eq_err {st : ServiceState} {wiki_id : WikiId} {e : Error} :
    getStore st wiki_id = Outcome.err e ↔
      st.stores.lookup wiki_id = none ∧ e = Error.wikiNotFound := by
  unfold getStore
  cases h : st.stores.lookup wiki_id <;> simp [eq_comm]

theorem check_normal_eq_err {slug : String} {e : Error} :
    check_normal slug = Outcome.err e ↔
      is_normal slug = false ∧
        e = Error.staticMsg "slug not in wikidot normal form" := by
  unfold check_normal
  by_cases h : is_normal slug <;> simp [h, eq_comm]

theorem RevisionStore.commit_eq_err {store : RevisionStore} {slug : String}
    {content : Option (List Nat)} {info : CommitInfo} {e : Error} :
    RevisionStore.commit store slug content info = Outcome.err e ↔
      is_normal slug = false ∧
        e = Error.staticMsg "slug not in wikidot normal form" := by
  unfold RevisionStore.commit
  cases hc : check_normal slug with
  | ok u =>
    cases u
    have : ¬ (is_normal slug = false ∧
        e = Error.staticMsg "slug not in wikidot normal form") := by
      intro ⟨h1, _⟩
      rw [check_normal, h1] at hc
      simp at hc
    cases content <;> simp [this]
  | err e' =>
    obtain ⟨h1, h2⟩ := check_normal_eq_err.mp hc
    subst h2
    simp [h1, eq_comm]
  | panic m =>
    rw [check_normal] at hc
    by_cases h : is_normal slug <;> simp [h] at hc

theorem RevisionStore.empty_commit_ne_err {store : RevisionStore}
    {info : CommitInfo} {e : Error} :
    RevisionStore.empty_commit store info ≠ Outcome.err e := by
  unfold RevisionStore.empty_commit
  simp

theorem RevisionStore.rename_err_static {store : RevisionStore}
    {old_slug new_slug : String} {info : CommitInfo} {e : Error}
    (h : RevisionStore.rename store old_slug new_slug info = Outcome.err e) :
    ∃ m, e = Error.staticMsg m := by
  unfold RevisionStore.rename at h
  cases h1 : check_normal old_slug with
  | ok u =>
    cases u
    rw [h1] at h
    cases h2 : check_normal new_slug with
    | ok v =>
      cases v
      rw [h2] at h
      simp only [Outcome.ok_bind] at h
      cases h3 : store.tree.lookup old_slug with
      | none =>
        simp only [h3] at h
        injection h with h'
        exact ⟨_, h'.symm⟩
      | some c =>
        by_cases h4 : store.tree.any (fun f => f.1 == new_slug) <;>
          simp only [h3, h4, if_pos, if_neg, Bool.not_eq_true] at h
        · injection h with h'
          exact ⟨_, h'.symm⟩
        · simp at h
    | err e2 =>
      rw [h2] at h
      simp at h
      obtain ⟨_, he⟩ := check_normal_eq_err.mp (h2.trans (by rw [h]))
      exact ⟨_, he⟩
    | panic m =>
      rw [check_normal] at h2
      by_cases hn : is_normal new_slug <;> simp [hn] at h2
  | err e1 =>
    rw [h1] at h
    simp at h
    obtain ⟨_, he⟩ := check_normal_eq_err.mp (h1.trans (by rw [h]))
    exact ⟨_, he⟩
  | panic m =>
    rw [check_normal] at h1
    by_cases hn : is_normal old_slug <;> simp [hn] at h1

theorem RevisionStore.restore_err_static {store : RevisionStore}
    {new_slug old_slug : String} {hash : GitHash} {info : CommitInfo}
    {e : Error}
    (h : RevisionStore.restore store new_slug old_slug hash info =
      Outcome.err e) :
    ∃ m, e = Error.staticMsg m := by
  unfold RevisionStore.restore at h
  cases h1 : check_normal new_slug with
  | ok u =>
    cases u
    rw [h1] at h
    cases h2 : check_normal old_slug with
    | ok v =>
      cases v
      rw [h2] at h
      simp only [Outcome.ok_bind] at h
      cases h3 : store.snapshots.get? hash with
      | none =>
        simp only [h3] at h
        injection h with h'
        exact ⟨_, h'.symm⟩
      | some t =>
        cases h4 : t.lookup old_slug with
        | none =>
          simp only [h3, h4] at h
          injection h with h'
          exact ⟨_, h'.symm⟩
        | some c => simp only [h3, h4] at h; simp at h
    | err e2 =>
      rw [h2] at h
      simp at h
      obtain ⟨_, he⟩ := check_normal_eq_err.mp (h2.trans (by rw [h]))
      exact ⟨_, he⟩
    | panic m =>
      rw [check_normal] at h2
      by_cases hn : is_normal old_slug <;> simp [hn] at h2
  | err e1 =>
    rw [h1] at h
    simp at h
    obtain ⟨_, he⟩ := check_normal_eq_err.mp (h1.trans (by rw [h]))
    exact ⟨_, he⟩
  | panic m =>
    rw [check_normal] at h1
    by_cases hn : is_normal new_slug <;> simp [hn] at h1

theorem raw_commit_err {st : ServiceState} {wiki_id : WikiId} {slug : String}
    {content : Option (List Nat)} {info : CommitInfo} {e : Error}
    (h : raw_commit st wiki_id slug content info = Outcome.err e) :
    e = Error.wikiNotFound ∨
      e = Error.staticMsg "slug not in wikidot normal form" := by
  unfold raw_commit at h
  rcases Outcome.bind_eq_err.mp h with hs | ⟨store, hs, hrest⟩
  · exact Or.inl (getStore_eq_err.mp hs).2
  · rcases Outcome.bind_eq_err.mp hrest with hc | ⟨r, hc, hp⟩
    · exact Or.inr (RevisionStore.commit_eq_err.mp hc).2
    · simp at hp

end Deepwell

namespace Deepwell

/-- C10: `get_page` returns a page only when it matches the wiki, the slug
and has `deleted_at = null` — hence `none` whenever every matching row is
soft-deleted — whereas `get_page_by_id` returns the row for an existing page
id with no filter on `deleted_at`. -/
theorem get_page_filters_deleted_get_page_by_id_does_not (db : Db)
    (wiki_id : WikiId) (slug : String) (page_id : PageId) :
    (∀ p, get_page db wiki_id slug = some p →
        p.wiki_id = wiki_id ∧ p.slug = slug ∧ p.deleted_at = none)
    ∧ ((∀ p ∈ db.pages, p.wiki_id = wiki_id → p.slug = slug →
          p.deleted_at ≠ none) →
        get_page db wiki_id slug = none)
    ∧ (∀ p, get_page_by_id db page_id = some p → p.page_id = page_id)
    ∧ (∀ p, db.pages.find? (fun q => q.page_id == page_id) = some p →
        get_page_by_id db page_id = some p) := by
  refine ⟨?_, ?_, ?_, ?_⟩
  · intro p hp
    have := List.find?_some hp
    simp only [Bool.and_eq_true, beq_iff_eq] at this
    exact ⟨this.1.1, this.1.2, this.2⟩
  · intro hall
    apply List.find?_eq_none.mpr
    intro p hp
    simp only [Bool.and_eq_true, beq_iff_eq, not_and]
    intro hws
    exact hall p hp hws.1 hws.2
  · intro p hp
    have := List.find?_some hp
    simpa using this
  · intro p hp
    exact hp

/-- Fixture for the C10 witness: a single soft-deleted page. -/
def pageC10fix : Page :=
  { page_id := 7, wiki_id := 1, slug := "a", title := "T", alt_title := none,
    tags := [], created_at := 0, deleted_at := some 3 }

/-- Fixture for the C10 witness: its database. -/
def dbC10fix : Db :=
  { pages := [pageC10fix], revisions := [], tag_history := [],
    next_page_id := 8, next_revision_id := 1 }

/-- Witness for C10: on a database whose only page is soft-deleted,
`get_page` returns `none` while `get_page_by_id` returns the row. -/
theorem get_page_filters_deleted_witness :
    get_page dbC10fix 1 "a" = none
    ∧ get_page_by_id dbC10fix 7 = some pageC10fix := by
  have h := get_page_filters_deleted_get_page_by_id_does_not dbC10fix 1 "a" 7
  exact ⟨h.2.1 (by decide), h.2.2.2 pageC10fix (by decide)⟩

/-- C4 (amended): `PageService::create` fails `PageExists` exactly when any
page row with the same `(wiki_id, slug)` exists, whether or not it is
soft-deleted — so a slug occupied only by soft-deleted pages still blocks
creation. -/
theorem create_page_exists_iff (st : ServiceState) (c : PageCommit)
    (content : List Nat) (title : String) (alt_title : Option String)
    (now : Int) :
    PageService.create st c content title alt_title now =
        Outcome.err Error.pageExists ↔
      ∃ p ∈ st.db.pages, p.wiki_id = c.wiki_id ∧ p.slug = c.slug := by
  unfold PageService.create
  cases hfind : get_page_id st.db c.wiki_id c.slug with
  | some pid =>
    apply iff_of_true rfl
    unfold get_page_id at hfind
    obtain ⟨p, hp, _⟩ := Option.map_eq_some'.mp hfind
    have hmem := List.mem_of_find?_eq_some hp
    have hpred := List.find?_some hp
    simp only [Bool.and_eq_true, beq_iff_eq] at hpred
    exact ⟨p, hmem, hpred.1, hpred.2⟩
  | none =>
    apply iff_of_false
    · intro h
      rcases Outcome.bind_eq_err.mp h with hrc | ⟨r, _, hrest⟩
      · rcases raw_commit_err hrc with h' | h' <;> simp at h'
      · simp at hrest
    · rintro ⟨p, hmem, hw, hs⟩
      unfold get_page_id at hfind
      rw [Option.map_eq_none'] at hfind
      have := List.find?_eq_none.mp hfind p hmem
      simp [hw, hs] at this

/-- Fixture for the C4 counterexample: a soft-deleted page occupying the
slug, and a store for its wiki. -/
def stC4fix : ServiceState :=
  { db :=
      { pages :=
          [{ page_id := 1, wiki_id := 1, slug := "a", title := "T",
             alt_title := none, tags := [], created_at := 0,
             deleted_at := some 2 }]
        revisions := [], tag_history := [], next_page_id := 2,
        next_revision_id := 1 }
    stores := [(1, { snapshots := [[]], domain := "example.org" })] }

/-- Counterexample to C4 as stated: with the slug occupied only by a
soft-deleted page, `create` still fails `PageExists` instead of
succeeding. -/
theorem create_soft_deleted_slug_cex :
    PageService.create stC4fix
        { wiki_id := 1, slug := "a", message := "m",
          user := { id := 5, name := "u" } }
        [7] "T2" none 9
      = Outcome.err Error.pageExists
    ∧ stC4fix.db.pages.all (fun p => !(p.deleted_at == none)) = true := by
  constructor
  · rfl
  · decide

end Deepwell

namespace Deepwell

/-- C2 (amended): `commit`, `tags` and `rename` fail `PageNotFound` exactly
when no page row at all — live or soft-deleted — matches the `(wiki_id,
slug)`; `get_page_id` does not filter on `deleted_at`, so a soft-deleted page
is found and operated on like a live one (any error raised past that point is
never `PageNotFound`). -/
theorem deleted_page_ops_not_found_iff (st : ServiceState) (c : PageCommit)
    (content : Option (List Nat)) (title : Option String)
    (alt_title : Option (Option String)) (new_tags : List String)
    (new_slug : String) :
    (PageService.commit st c content title alt_title =
        Outcome.err Error.pageNotFound ↔
      get_page_id st.db c.wiki_id c.slug = none)
    ∧ (PageService.tags st c new_tags = Outcome.err Error.pageNotFound ↔
      get_page_id st.db c.wiki_id c.slug = none)
    ∧ (PageService.rename st c.wiki_id c.slug new_slug c.message c.user =
        Outcome.err Error.pageNotFound ↔
      get_page_id st.db c.wiki_id c.slug = none) := by
  refine ⟨?_, ?_, ?_⟩
  · unfold PageService.commit
    cases hfind : get_page_id st.db c.wiki_id c.slug with
    | none => exact iff_of_true rfl rfl
    | some pid =>
      apply iff_of_false
      · intro h
        rcases Outcome.bind_eq_err.mp h with hrc | ⟨r, _, hrest⟩
        · rcases raw_commit_err hrc with h' | h' <;> simp at h'
        · simp at hrest
      · simp
  · unfold PageService.tags
    cases hfind : get_page_id st.db c.wiki_id c.slug with
    | none => exact iff_of_true rfl rfl
    | some pid =>
      apply iff_of_false
      · intro h
        cases hrow : st.db.pages.find? (fun p => p.page_id == pid) with
        | none =>
          simp only [hrow] at h
          simp at h
        | some row =>
          simp only [hrow] at h
          rcases Outcome.bind_eq_err.mp h with hgs | ⟨store, _, hrest⟩
          · have := (getStore_eq_err.mp hgs).2
            simp at this
          · rcases Outcome.bind_eq_err.mp hrest with hec | ⟨r, _, hp⟩
            · exact RevisionStore.empty_commit_ne_err hec
            · simp at hp
      · simp
  · unfold PageService.rename
    cases hfind : get_page_id st.db c.wiki_id c.slug with
    | none => exact iff_of_true rfl rfl
    | some pid =>
      apply iff_of_false
      · intro h
        rcases Outcome.bind_eq_err.mp h with hgs | ⟨store, _, hrest⟩
        · have := (getStore_eq_err.mp hgs).2
          simp at this
        · rcases Outcome.bind_eq_err.mp hrest with hrn | ⟨r, _, hp⟩
          · obtain ⟨m, hm⟩ := RevisionStore.rename_err_static hrn
            simp at hm
          · simp at hp
      · simp

/-- Fixture for the C2 counterexample: a soft-deleted page whose wiki has a
store (the post-`remove` situation: the blob is gone from the tree). -/
def stC2fix : ServiceState :=
  { db :=
      { pages :=
          [{ page_id := 1, wiki_id := 1, slug := "a", title := "T",
             alt_title := none, tags := [], created_at := 0,
             deleted_at := some 2 }]
        revisions := [], tag_history := [], next_page_id := 2,
        next_revision_id := 1 }
    stores := [(1, { snapshots := [[]], domain := "example.org" })] }

/-- The page commit used by the C2 counterexample. -/
def cC2fix : PageCommit :=
  { wiki_id := 1, slug := "a", message := "m",
    user := { id := 5, name := "u" } }

/-- Counterexample to C2 as stated: on a soft-deleted page, `commit` and
`tags` succeed — neither fails `PageNotFound`. -/
theorem deleted_page_ops_cex :
    (PageService.commit stC2fix cC2fix (some [7]) none none).isOk = true
    ∧ PageService.commit stC2fix cC2fix (some [7]) none none ≠
        Outcome.err Error.pageNotFound
    ∧ (PageService.tags stC2fix cC2fix ["t"]).isOk = true
    ∧ PageService.tags stC2fix cC2fix ["t"] ≠
        Outcome.err Error.pageNotFound
    ∧ stC2fix.db.pages.all (fun p => !(p.deleted_at == none)) = true := by
  refine ⟨by rfl, by decide, by rfl, by decide, by decide⟩

/-- Fixture for the C5 bug theorem: the only page lives in wiki 2; wiki 1
holds no page at all. -/
def stC5fix : ServiceState :=
  { db :=
      { pages :=
          [{ page_id := 1, wiki_id := 2, slug := "a", title := "T",
             alt_title := none, tags := [], created_at := 0,
             deleted_at := none }]
        revisions := [], tag_history := [], next_page_id := 2,
        next_revision_id := 1 }
    stores := [] }

/-- C5: `restore`'s `check_page` ignores its `wiki_id` argument, so a live
page with the same slug in a different wiki makes `restore` fail
`PageExists` even though the target wiki holds no page with that slug (the
spec requires the check to be qualified by `wiki_id`). -/
theorem restore_cross_wiki_page_exists_bug :
    PageService.restore stC5fix
        { wiki_id := 1, slug := "a", message := "m",
          user := { id := 5, name := "u" } }
        none
      = Outcome.err Error.pageExists
    ∧ stC5fix.db.pages.all (fun p => !(p.wiki_id == 1)) = true := by
  constructor
  · rfl
  · decide

/-- Fixture for the C3 bug theorem: two live pages in the same wiki; the
second carries the tag `zz`, the first is the target of the call. -/
def stC3fix : ServiceState :=
  { db :=
      { pages :=
          [{ page_id := 1, wiki_id := 1, slug := "a", title := "A",
             alt_title := none, tags := [], created_at := 0,
             deleted_at := none },
           { page_id := 2, wiki_id := 1, slug := "b", title := "B",
             alt_title := none, tags := ["zz"], created_at := 0,
             deleted_at := none }]
        revisions := [], tag_history := [], next_page_id := 3,
        next_revision_id := 1 }
    stores := [(1, { snapshots := [[]], domain := "example.org" })] }

/-- C3: the `UPDATE pages SET tags = …` in `PageService::tags` carries no row
filter, so a successful `tags` call writes the sorted input to the target
page *and to every other page row*: here the unrelated page `b` loses its
tag `zz`. -/
theorem tags_updates_every_row_bug :
    stC3fix.db.pages.map (fun p => p.tags) = [[], ["zz"]]
    ∧ (match PageService.tags stC3fix
          { wiki_id := 1, slug := "a", message := "m",
            user := { id := 5, name := "u" } }
          ["m", "k"] with
        | .ok r => r.1.db.pages.map (fun p => p.tags)
        | .err _ => []
        | .panic _ => []) = [["k", "m"], ["k", "m"]] := by
  constructor
  · decide
  · rfl

end Deepwell

namespace Deepwell

/-- C9: with `cur` the page's current tag list found by the operation, the
`added`/`removed` arrays that `tags` computes and writes to the `tag_history`
row are each sorted ascending and mutually disjoint; `added` is the set
difference new-minus-old and `removed` is old-minus-new, and a successful
`tags` call appends exactly that row to `tag_history`. -/
theorem tags_history_row_sorted_disjoint (st : ServiceState) (c : PageCommit)
    (new_tags : List String) (pid : PageId) (row : Page)
    (hpid : get_page_id st.db c.wiki_id c.slug = some pid)
    (hrow : st.db.pages.find? (fun p => p.page_id == pid) = some row) :
    List.Sorted (· ≤ ·) (tag_diff row.tags new_tags).1
    ∧ List.Sorted (· ≤ ·) (tag_diff row.tags new_tags).2
    ∧ (∀ t, t ∈ (tag_diff row.tags new_tags).1 ↔
        t ∈ new_tags ∧ t ∉ row.tags)
    ∧ (∀ t, t ∈ (tag_diff row.tags new_tags).2 ↔
        t ∈ row.tags ∧ t ∉ new_tags)
    ∧ (∀ t, t ∈ (tag_diff row.tags new_tags).1 →
        t ∉ (tag_diff row.tags new_tags).2)
    ∧ (∀ st' rid, PageService.tags st c new_tags = Outcome.ok (st', rid) →
        st'.db.tag_history = st.db.tag_history ++
          [{ revision_id := rid,
             added_tags := (tag_diff row.tags new_tags).1,
             removed_tags := (tag_diff row.tags new_tags).2 }]) := by
  have hmem1 : ∀ t, t ∈ (tag_diff row.tags new_tags).1 ↔
      t ∈ new_tags ∧ t ∉ row.tags := by
    intro t
    simp [tag_diff, mem_sortStrings, List.mem_filter]
  have hmem2 : ∀ t, t ∈ (tag_diff row.tags new_tags).2 ↔
      t ∈ row.tags ∧ t ∉ new_tags := by
    intro t
    simp [tag_diff, mem_sortStrings, List.mem_filter]
  refine ⟨?_, ?_, hmem1, hmem2, ?_, ?_⟩
  · exact sortStrings_sorted _
  · exact sortStrings_sorted _
  · intro t h1 h2
    exact ((hmem2 t).mp h2).2 ((hmem1 t).mp h1).1
  · intro st' rid h
    unfold PageService.tags at h
    rw [hpid] at h
    simp only [hrow] at h
    rcases Outcome.bind_eq_ok.mp h with ⟨store, hstore, hrest⟩
    rcases Outcome.bind_eq_ok.mp hrest with ⟨r, hr, hpure⟩
    simp only [Outcome.pure_eq, Outcome.ok.injEq, Prod.mk.injEq] at hpure
    obtain ⟨hst', hrid⟩ := hpure
    subst hst'
    subst hrid
    rfl

/-- Fixture for the C9 witness: the target page, carrying tags
`["x", "m"]`. -/
def pageC9fix : Page :=
  { page_id := 1, wiki_id := 1, slug := "a", title := "A", alt_title := none,
    tags := ["x", "m"], created_at := 0, deleted_at := none }

/-- Fixture for the C9 witness: its service state. -/
def stC9fix : ServiceState :=
  { db :=
      { pages := [pageC9fix], revisions := [], tag_history := [],
        next_page_id := 2, next_revision_id := 1 }
    stores := [(1, { snapshots := [[]], domain := "example.org" })] }

/-- The page commit used by the C9 witness. -/
def cC9fix : PageCommit :=
  { wiki_id := 1, slug := "a", message := "m",
    user := { id := 5, name := "u" } }

/-- Witness for C9: the invariants instantiated on a concrete state and
input list. -/
theorem tags_history_row_sorted_disjoint_witness :
    List.Sorted (· ≤ ·) (tag_diff pageC9fix.tags ["m", "k"]).1
    ∧ List.Sorted (· ≤ ·) (tag_diff pageC9fix.tags ["m", "k"]).2
    ∧ (∀ t, t ∈ (tag_diff pageC9fix.tags ["m", "k"]).1 ↔
        t ∈ ["m", "k"] ∧ t ∉ pageC9fix.tags)
    ∧ (∀ t, t ∈ (tag_diff pageC9fix.tags ["m", "k"]).2 ↔
        t ∈ pageC9fix.tags ∧ t ∉ ["m", "k"])
    ∧ (∀ t, t ∈ (tag_diff pageC9fix.tags ["m", "k"]).1 →
        t ∉ (tag_diff pageC9fix.tags ["m", "k"]).2)
    ∧ (∀ st' rid,
        PageService.tags stC9fix cC9fix ["m", "k"] = Outcome.ok (st', rid) →
        st'.db.tag_history = stC9fix.db.tag_history ++
          [{ revision_id := rid,
             added_tags := (tag_diff pageC9fix.tags ["m", "k"]).1,
             removed_tags := (tag_diff pageC9fix.tags ["m", "k"]).2 }]) :=
  tags_history_row_sorted_disjoint stC9fix cC9fix ["m", "k"] 1 pageC9fix
    (by decide) (by decide)

/-- C6 (amended): when the user already has a session row and the password
check succeeds, `create_session` returns the *existing* token and leaves the
state unchanged; `create_token` is never reached, so no fresh token is
generated and the old token keeps identifying the session. -/
theorem create_session_reuses_existing_token (st : ServerState)
    (user_id : UserId) (password ip fresh : String) (now : Int) (t : String)
    (hcheck : PasswordManager.check st.passwords user_id password =
      Outcome.ok ())
    (htok : SessionManager.get_token st.sessions user_id = some t) :
    Server.create_session st user_id password ip fresh now =
      Outcome.ok (st, t) := by
  unfold Server.create_session
  rw [hcheck]
  simp only [Outcome.ok_bind, htok, Outcome.pure_eq]

/-- Fixture for C6: a stored password record for user 1 matching the
password of the scenario. -/
def pwC6fix : Password := new_password 1 (strBytes "blackmoonhowls") [9, 9]

/-- Fixture for C6: user 1 already holds the session token `oldtoken`. -/
def stC6fix : ServerState :=
  { passwords := [pwC6fix]
    sessions := [{ user_id := 1, token := "oldtoken", ip_address := "::1",
                   created_at := 0 }] }

/-- Witness for C6 (amended): on the concrete state the re-login returns the
stored token unchanged. -/
theorem create_session_reuses_existing_token_witness :
    Server.create_session stC6fix 1 "blackmoonhowls" "::1" "freshtoken" 5 =
      Outcome.ok (stC6fix, "oldtoken") :=
  create_session_reuses_existing_token stC6fix 1 "blackmoonhowls" "::1"
    "freshtoken" 5 "oldtoken" (by decide) (by decide)

/-- Counterexample to C6 as stated: a successful re-login hands back the
previously issued token with the session row untouched — the freshly
generated token is not used and nothing is overwritten. -/
theorem create_session_fresh_token_cex :
    Server.create_session stC6fix 1 "blackmoonhowls" "::1" "freshtoken" 5 =
      Outcome.ok (stC6fix, "oldtoken")
    ∧ ("oldtoken" : String) ≠ "freshtoken" := by
  constructor
  · rfl
  · decide

/-- Fixture for C7: an empty store directory. -/
def storeC7fix : Revisions.RevisionStore :=
  { files := [], domain := "example.org" }

/-- The commit info used by the C7 theorem. -/
def infoC7fix : CommitInfo := { username := "u", message := "m" }

/-- C7: in `revisions/store.rs` only `get_page` enforces wikidot-normal
slugs; `commit` writes the file for a non-normal slug before reaching its
unimplemented git invocation, and neither `commit`, `remove` nor
`get_page_version` ever returns the slug-not-normal error. -/
theorem store_commit_skips_slug_check_bug :
    is_normal "Bad Slug" = false
    ∧ Revisions.RevisionStore.get_page storeC7fix "Bad Slug"
        = Outcome.err (Error.staticMsg "slug not in wikidot normal form")
    ∧ (Revisions.RevisionStore.commit storeC7fix "Bad Slug" [7]
        infoC7fix).1.files = [("Bad Slug", [7])]
    ∧ (Revisions.RevisionStore.commit storeC7fix "Bad Slug" [7]
        infoC7fix).2 = Outcome.panic "not implemented"
    ∧ (Revisions.RevisionStore.remove storeC7fix "Bad Slug" infoC7fix).2
        ≠ Outcome.err (Error.staticMsg "slug not in wikidot normal form")
    ∧ Revisions.RevisionStore.get_page_version storeC7fix "Bad Slug" 0
        ≠ Outcome.err (Error.staticMsg "slug not in wikidot normal form") := by
  refine ⟨by decide, by decide, by decide, by decide, by decide, by decide⟩

end Deepwell
